import Mathlib

/-!
Shallow embedding of `src/vs/workbench/parts/scm/electron-browser/scmViewlet.ts`:
the SCM viewlet's list-flattening, identity-key, action-routing, input-box and
layout logic, together with theorems checking the specification's claims.

Strings stand for TypeScript strings (URIs are embedded via their
`toString()` rendering), `Option` stands for possibly-`undefined` fields, and
object identity (`!==`) is embedded as decidable structural equality on the
record values an object carries.
-/

set_option autoImplicit false

namespace SCMViewlet

/-- The provider fields the embedded code reads (`ISCMProvider` as used here):
`contextValue` feeds the identity key. -/
structure SCMProviderRef where
  contextValue : String
  deriving DecidableEq, Repr

/-- The `resourceGroup` back-pointer carried by a resource: its `id` and its
`provider`. -/
structure SCMResourceGroupRef where
  provider : SCMProviderRef
  id : String
  deriving DecidableEq, Repr

/-- An `ISCMResource`: its group back-pointer and `sourceUri.toString()`. -/
structure SCMResource where
  resourceGroup : SCMResourceGroupRef
  sourceUri : String
  deriving DecidableEq, Repr

/-- `g.resourceCollection` — the object holding a group's current resources. -/
structure SCMResourceCollection where
  resources : List SCMResource
  deriving DecidableEq, Repr

/-- An `ISCMResourceGroup`: provider, `id`, `label`, `hideWhenEmpty` and its
resource collection. -/
structure SCMResourceGroup where
  provider : SCMProviderRef
  id : String
  label : String
  hideWhenEmpty : Bool
  resourceCollection : SCMResourceCollection
  deriving DecidableEq, Repr

/-- The union type `ISCMResourceGroup | ISCMResource` flowing through the
flattened list, as a tagged union. -/
inductive SCMElement
  | group (g : SCMResourceGroup)
  | resource (r : SCMResource)
  deriving DecidableEq, Repr

/-- `isSCMResource` from `scmUtil.ts`: the runtime predicate discriminating a
resource from a resource group. -/
def isSCMResource : SCMElement → Bool
  | .resource _ => true
  | .group _ => false

/-- `identityProvider` (scmViewlet.ts lines 71–80): the reconciliation key.
A resource maps to `contextValue/groupId/sourceUri`, a group to
`contextValue/groupId`. -/
def identityProvider : SCMElement → String
  | .resource r =>
      r.resourceGroup.provider.contextValue ++ "/" ++ r.resourceGroup.id ++ "/" ++ r.sourceUri
  | .group g =>
      g.provider.contextValue ++ "/" ++ g.id

namespace ProviderPanel

/-- `ProviderPanel.updateList` (lines 586–597): flatten the provider's ordered
groups with a `reduce`; a group with no resources and `hideWhenEmpty` set is
skipped, otherwise the group is appended followed by its resources. The
result is then spliced wholesale into the list widget, so it is the list's
new content. -/
def updateList (resources : List SCMResourceGroup) : List SCMElement :=
  resources.foldl
    (fun r g =>
      if g.resourceCollection.resources.length = 0 && g.hideWhenEmpty then
        r
      else
        r ++ (SCMElement.group g :: g.resourceCollection.resources.map SCMElement.resource))
    []

end ProviderPanel

/-- The per-group segment of the flattened list: empty when the group is
elided, otherwise the group followed by its resources. Spelled out so the
fold in `ProviderPanel.updateList` can be characterised non-recursively. -/
def groupSegment (g : SCMResourceGroup) : List SCMElement :=
  if g.resourceCollection.resources.length = 0 && g.hideWhenEmpty then
    []
  else
    SCMElement.group g :: g.resourceCollection.resources.map SCMElement.resource

theorem updateList_foldl_acc (gs : List SCMResourceGroup) (acc : List SCMElement) :
    gs.foldl
      (fun r g =>
        if g.resourceCollection.resources.length = 0 && g.hideWhenEmpty then
          r
        else
          r ++ (SCMElement.group g :: g.resourceCollection.resources.map SCMElement.resource))
      acc = acc ++ (gs.map groupSegment).flatten := by
  induction gs generalizing acc with
  | nil => simp
  | cons g gs ih =>
      by_cases h : (g.resourceCollection.resources.length = 0 && g.hideWhenEmpty) = true
      · rw [List.foldl_cons, if_pos h, ih, List.map_cons, List.flatten_cons, groupSegment,
          if_pos h, List.nil_append]
      · rw [List.foldl_cons, if_neg h, ih, List.map_cons, List.flatten_cons, groupSegment,
          if_neg h, List.append_assoc]

theorem updateList_eq_flatten (gs : List SCMResourceGroup) :
    ProviderPanel.updateList gs = (gs.map groupSegment).flatten := by
  rw [ProviderPanel.updateList, updateList_foldl_acc, List.nil_append]

theorem mem_groupSegment_group {g g' : SCMResourceGroup}
    (h : SCMElement.group g ∈ groupSegment g') :
    g' = g ∧ ¬(g'.resourceCollection.resources.length = 0 ∧ g'.hideWhenEmpty = true) := by
  unfold groupSegment at h
  by_cases hc : (g'.resourceCollection.resources.length = 0 && g'.hideWhenEmpty) = true
  · rw [if_pos hc] at h
    exact absurd h (List.not_mem_nil _)
  · rw [if_neg hc] at h
    rcases List.mem_cons.mp h with h | h
    · cases h
      refine ⟨rfl, fun ⟨h0, h1⟩ => hc ?_⟩
      simp [h0, h1]
    · rcases List.mem_map.mp h with ⟨r, _, hr⟩
      cases hr

/-- A non-empty, non-hidden sample group used to witness the flattening
claims on concrete input. -/
def gShownEmpty : SCMResourceGroup :=
  { provider := { contextValue := "git" }
    id := "merge"
    label := "Merge Changes"
    hideWhenEmpty := false
    resourceCollection := { resources := [] } }

/-- C1: `updateList` flattens the provider's groups in declared order — each
group whose resource count is non-zero or whose `hideWhenEmpty` flag is false
is emitted followed by its resources in order, a group with zero resources
and `hideWhenEmpty` true is omitted entirely, and an empty group appears in
the output iff its `hideWhenEmpty` flag is false. -/
theorem updateList_spec (gs : List SCMResourceGroup) :
    ProviderPanel.updateList gs = (gs.map groupSegment).flatten ∧
      ∀ g ∈ gs, g.resourceCollection.resources = [] →
        (SCMElement.group g ∈ ProviderPanel.updateList gs ↔ g.hideWhenEmpty = false) := by
  refine ⟨updateList_eq_flatten gs, fun g hg hres => ?_⟩
  rw [updateList_eq_flatten]
  constructor
  · intro hmem
    rcases List.mem_flatten.mp hmem with ⟨seg, hseg, hmem⟩
    rcases List.mem_map.mp hseg with ⟨g', _, rfl⟩
    obtain ⟨heq, hne⟩ := mem_groupSegment_group hmem
    rw [heq] at hne
    cases hb : g.hideWhenEmpty with
    | false => rfl
    | true => exact absurd ⟨by rw [hres]; rfl, hb⟩ hne
  · intro hhide
    refine List.mem_flatten.mpr ⟨groupSegment g, List.mem_map.mpr ⟨g, hg, rfl⟩, ?_⟩
    unfold groupSegment
    rw [if_neg (by simp [hhide])]
    exact List.mem_cons_self _ _

/-- Witness for C1 at a concrete empty, shown group. -/
theorem updateList_spec_witness :
    SCMElement.group gShownEmpty ∈ ProviderPanel.updateList [gShownEmpty] ↔
      gShownEmpty.hideWhenEmpty = false :=
  (updateList_spec [gShownEmpty]).2 gShownEmpty (List.mem_singleton.mpr rfl) rfl

theorem slash_append_inj {b c d : List Char} (a : List Char)
    (ha : '/' ∉ a) (hb : '/' ∉ b)
    (h : a ++ '/' :: c = b ++ '/' :: d) : a = b ∧ c = d := by
  induction a generalizing b with
  | nil =>
      cases b with
      | nil => simpa using h
      | cons y bs =>
          simp only [List.nil_append, List.cons_append, List.cons.injEq] at h
          exact absurd (h.1 ▸ List.mem_cons_self y bs) hb
  | cons x as ih =>
      cases b with
      | nil =>
          simp only [List.cons_append, List.nil_append, List.cons.injEq] at h
          exact absurd (h.1 ▸ List.mem_cons_self x as) ha
      | cons y bs =>
          simp only [List.cons_append, List.cons.injEq] at h
          obtain ⟨rfl, h⟩ := h
          obtain ⟨rfl, rfl⟩ :=
            ih (fun hm => ha (List.mem_cons_of_mem _ hm))
              (fun hm => hb (List.mem_cons_of_mem _ hm)) h
          exact ⟨rfl, rfl⟩

theorem key_data (cv gid uri : String) :
    (cv ++ "/" ++ gid ++ "/" ++ uri).data =
      cv.data ++ '/' :: (gid.data ++ '/' :: uri.data) := by
  simp [String.data_append, List.append_assoc]

/-- The concrete resource named by the spec:
`(providerContextValue="git", groupId="working-tree", sourceLocation="file:///a.ts")`. -/
def rGit : SCMResource :=
  { resourceGroup := { provider := { contextValue := "git" }, id := "working-tree" }
    sourceUri := "file:///a.ts" }

/-- A resource whose provider context value itself contains the separator. -/
def rSlashLeft : SCMResource :=
  { resourceGroup := { provider := { contextValue := "a/b" }, id := "c" }
    sourceUri := "u" }

/-- A resource with different components whose identity key collides with
`rSlashLeft`'s. -/
def rSlashRight : SCMResource :=
  { resourceGroup := { provider := { contextValue := "a" }, id := "b/c" }
    sourceUri := "u" }

/-- C2 counterexample: two resources with equal identity keys that disagree
on the provider context value (and on the group id), so equal keys do not
force equal components. -/
theorem identityProvider_not_injective :
    identityProvider (.resource rSlashLeft) = identityProvider (.resource rSlashRight) ∧
      rSlashLeft.resourceGroup.provider.contextValue ≠
        rSlashRight.resourceGroup.provider.contextValue := by
  exact ⟨by decide, by decide⟩

/-- C2 amended: the identity key is `contextValue/groupId/sourceUri` for a
resource and `contextValue/groupId` for a group (hence stable, being a pure
function of the entity), and two resources whose keys are equal agree on all
three components provided the provider context values and group ids contain
no `/` separator. -/
theorem identityProvider_spec :
    (∀ r : SCMResource, identityProvider (.resource r) =
        r.resourceGroup.provider.contextValue ++ "/" ++ r.resourceGroup.id ++ "/" ++ r.sourceUri) ∧
    (∀ g : SCMResourceGroup, identityProvider (.group g) =
        g.provider.contextValue ++ "/" ++ g.id) ∧
    (∀ r₁ r₂ : SCMResource,
        '/' ∉ r₁.resourceGroup.provider.contextValue.data →
        '/' ∉ r₂.resourceGroup.provider.contextValue.data →
        '/' ∉ r₁.resourceGroup.id.data →
        '/' ∉ r₂.resourceGroup.id.data →
        identityProvider (.resource r₁) = identityProvider (.resource r₂) →
        r₁.resourceGroup.provider.contextValue = r₂.resourceGroup.provider.contextValue ∧
          r₁.resourceGroup.id = r₂.resourceGroup.id ∧ r₁.sourceUri = r₂.sourceUri) := by
  refine ⟨fun r => rfl, fun g => rfl, fun r₁ r₂ hcv₁ hcv₂ hid₁ hid₂ hkey => ?_⟩
  have hdata := congrArg String.data hkey
  rw [show identityProvider (.resource r₁) =
        r₁.resourceGroup.provider.contextValue ++ "/" ++ r₁.resourceGroup.id ++ "/" ++
          r₁.sourceUri from rfl,
      show identityProvider (.resource r₂) =
        r₂.resourceGroup.provider.contextValue ++ "/" ++ r₂.resourceGroup.id ++ "/" ++
          r₂.sourceUri from rfl,
      key_data, key_data] at hdata
  obtain ⟨hcv, hrest⟩ := slash_append_inj _ hcv₁ hcv₂ hdata
  obtain ⟨hid, huri⟩ := slash_append_inj _ hid₁ hid₂ hrest
  exact ⟨String.ext hcv, String.ext hid, String.ext huri⟩

/-- Witness for the amended C2 at the spec's concrete resource. -/
theorem identityProvider_spec_witness :
    rGit.resourceGroup.provider.contextValue = rGit.resourceGroup.provider.contextValue ∧
      rGit.resourceGroup.id = rGit.resourceGroup.id ∧ rGit.sourceUri = rGit.sourceUri :=
  identityProvider_spec.2.2 rGit rGit (by decide) (by decide) (by decide) (by decide) rfl

/-- Outcome of `MultipleSelectionActionRunner.runAction`: either the
menu-item action runs once with the given argument list (`action.run(...)`),
or the base class `ActionRunner.runAction` handles the call. -/
inductive RunResult (R : Type)
  | menuRun (args : List R)
  | superRun (context : R)
  deriving DecidableEq, Repr

namespace MultipleSelectionActionRunner

/-- `MultipleSelectionActionRunner.runAction` (lines 317–330). For a
`MenuItemAction` the current selection is filtered by `s !== context`; when
nothing was filtered out, or the selection is a singleton, the action runs
with the context alone, otherwise with the context followed by the filtered
selection. Object identity `!==` is embedded as decidable equality. -/
def runAction {R : Type} [DecidableEq R] (isMenuItemAction : Bool)
    (selection : List R) (context : R) : RunResult R :=
  if isMenuItemAction then
    let filteredSelection := selection.filter (fun s => decide (s ≠ context))
    if selection.length = filteredSelection.length ∨ selection.length = 1 then
      .menuRun [context]
    else
      .menuRun (context :: filteredSelection)
  else
    .superRun context

end MultipleSelectionActionRunner

/-- C3: when the context resource belongs to a selection of length at least
two, the menu-item action is invoked exactly once, with the context first
and then the selection minus the context, in the selection's order. -/
theorem runAction_member_multi {R : Type} [DecidableEq R]
    (selection : List R) (context : R)
    (hmem : context ∈ selection) (hlen : 2 ≤ selection.length) :
    MultipleSelectionActionRunner.runAction true selection context =
      RunResult.menuRun (context :: selection.filter (fun s => decide (s ≠ context))) := by
  unfold MultipleSelectionActionRunner.runAction
  rw [if_pos rfl, if_neg]
  rintro (hsame | hone)
  · have hlt : (selection.filter (fun s => decide (s ≠ context))).length < selection.length := by
      refine List.length_filter_lt_length_iff_exists.mpr ⟨context, hmem, ?_⟩
      simp
    omega
  · omega

/-- Witness for C3: a selection of three resources containing the context. -/
theorem runAction_member_multi_witness :
    MultipleSelectionActionRunner.runAction true
        [SCMElement.resource rGit, SCMElement.resource rSlashLeft, SCMElement.resource rSlashRight]
        (SCMElement.resource rSlashLeft) =
      RunResult.menuRun (SCMElement.resource rSlashLeft ::
        List.filter (fun s => decide (s ≠ SCMElement.resource rSlashLeft))
          [SCMElement.resource rGit, SCMElement.resource rSlashLeft,
            SCMElement.resource rSlashRight]) :=
  runAction_member_multi
    [SCMElement.resource rGit, SCMElement.resource rSlashLeft, SCMElement.resource rSlashRight]
    (SCMElement.resource rSlashLeft) (by decide) (by decide)

/-- C4: when the selection is empty, a singleton, or does not contain the
context, the menu-item action is invoked with the context argument only. -/
theorem runAction_no_fanout {R : Type} [DecidableEq R]
    (selection : List R) (context : R)
    (h : selection = [] ∨ selection.length = 1 ∨ context ∉ selection) :
    MultipleSelectionActionRunner.runAction true selection context =
      RunResult.menuRun [context] := by
  have hcond : selection.length =
      (List.filter (fun s => decide (s ≠ context)) selection).length ∨
        selection.length = 1 := by
    rcases h with rfl | hone | hnot
    · exact Or.inl rfl
    · exact Or.inr hone
    · refine Or.inl ?_
      rw [List.filter_eq_self.mpr]
      intro a ha
      simp only [decide_eq_true_eq]
      rintro rfl
      exact hnot ha
  unfold MultipleSelectionActionRunner.runAction
  rw [if_pos rfl]
  show (if selection.length =
        (List.filter (fun s => decide (s ≠ context)) selection).length ∨
          selection.length = 1 then
      RunResult.menuRun [context]
    else
      RunResult.menuRun (context :: List.filter (fun s => decide (s ≠ context)) selection)) =
    RunResult.menuRun [context]
  rw [if_pos hcond]

/-- Witness for C4: a selection of three resources not containing the
context. -/
theorem runAction_no_fanout_witness :
    MultipleSelectionActionRunner.runAction true
        [SCMElement.resource rGit, SCMElement.resource rSlashLeft, SCMElement.resource rSlashRight]
        (SCMElement.group gShownEmpty) =
      RunResult.menuRun [SCMElement.group gShownEmpty] :=
  runAction_no_fanout
    [SCMElement.resource rGit, SCMElement.resource rSlashLeft, SCMElement.resource rSlashRight]
    (SCMElement.group gShownEmpty) (Or.inr (Or.inr (by decide)))

namespace ProviderPanel

/-- `ProviderPanel.getSelectedResources` (lines 627–630): the widget's
selected elements filtered by `isSCMResource`. -/
def getSelectedResources (selectedElements : List SCMElement) : List SCMElement :=
  selectedElements.filter isSCMResource

end ProviderPanel

/-- C10: the selection collector returns only resources, so every trailing
argument the multi-selection runner passes (the arguments after the context)
is a resource, never a resource group. -/
theorem getSelectedResources_spec (sel : List SCMElement) (ctx : SCMElement) :
    (∀ x ∈ ProviderPanel.getSelectedResources sel, isSCMResource x = true) ∧
    (∀ args : List SCMElement,
        MultipleSelectionActionRunner.runAction true
            (ProviderPanel.getSelectedResources sel) ctx = RunResult.menuRun (ctx :: args) →
        ∀ x ∈ args, isSCMResource x = true) := by
  constructor
  · intro x hx
    exact (List.mem_filter.mp hx).2
  · intro args hrun x hx
    unfold MultipleSelectionActionRunner.runAction at hrun
    rw [if_pos rfl] at hrun
    by_cases hc : (ProviderPanel.getSelectedResources sel).length =
        (List.filter (fun s => decide (s ≠ ctx)) (ProviderPanel.getSelectedResources sel)).length ∨
        (ProviderPanel.getSelectedResources sel).length = 1
    · rw [if_pos hc] at hrun
      cases hrun
      cases hx
    · rw [if_neg hc] at hrun
      injection hrun with h
      injection h with _ hargs
      subst hargs
      have hmem := List.mem_of_mem_filter hx
      exact (List.mem_filter.mp hmem).2

/-- Witness for C10: a mixed selection whose runner invocation carries one
trailing resource argument. -/
theorem getSelectedResources_spec_witness :
    isSCMResource (SCMElement.resource rGit) = true :=
  (getSelectedResources_spec
      [SCMElement.group gShownEmpty, SCMElement.resource rGit, SCMElement.resource rSlashLeft]
      (SCMElement.resource rSlashLeft)).2
    [SCMElement.resource rGit] (by decide) (SCMElement.resource rGit) (by decide)

/-- A `Command` from `vs/editor/common/modes` as used here: an id plus its
declared argument list (arguments are opaque payloads, embedded as strings). -/
structure Command where
  id : String
  arguments : List String
  deriving DecidableEq, Repr

/-- The provider fields `ProviderPanel`'s input-box logic reads. -/
structure SCMProvider where
  contextValue : String
  commitTemplate : Option String
  acceptInputCommand : Option Command
  deriving DecidableEq, Repr

/-- `ISCMInput`: the repository's mutable commit-message model. -/
structure SCMInput where
  value : String
  deriving DecidableEq, Repr

/-- An `ISCMRepository`: its provider and its input model. -/
structure SCMRepository where
  provider : SCMProvider
  input : SCMInput
  deriving DecidableEq, Repr

namespace ProviderPanel

/-- `ProviderPanel.updateInputBox` (lines 632–638): when the provider's
commit template is `undefined` the handler returns early and the input box
keeps its value; otherwise the input box value becomes the template. -/
def updateInputBox (provider : SCMProvider) (inputBoxValue : String) : String :=
  match provider.commitTemplate with
  | none => inputBoxValue
  | some t => t

/-- The commit input's value immediately after `renderBody` (lines 473–539):
line 488 seeds it from `repository.input.value`, then the initial
`updateInputBox()` call at line 502 applies the commit template when the
provider defines one. -/
def renderBodyInputBoxValue (repository : SCMRepository) : String :=
  updateInputBox repository.provider repository.input.value

end ProviderPanel

/-- C5: whenever the provider's commit template is defined, the
commit-template-changed handler overwrites the input box with it, whatever
value (including unsaved user edits) the box currently holds. -/
theorem updateInputBox_overwrites (provider : SCMProvider) (inputBoxValue t : String)
    (h : provider.commitTemplate = some t) :
    ProviderPanel.updateInputBox provider inputBoxValue = t := by
  unfold ProviderPanel.updateInputBox
  rw [h]

/-- Witness for C5: unsaved edits are overwritten by the template. -/
theorem updateInputBox_overwrites_witness :
    ProviderPanel.updateInputBox
        { contextValue := "git", commitTemplate := some "Merge branch x",
          acceptInputCommand := none }
        "my unsaved edit" = "Merge branch x" :=
  updateInputBox_overwrites
    { contextValue := "git", commitTemplate := some "Merge branch x",
      acceptInputCommand := none }
    "my unsaved edit" "Merge branch x" rfl

/-- A repository without a commit template whose input model already holds
text when the panel body is rendered. -/
def repoDraft : SCMRepository :=
  { provider := { contextValue := "git", commitTemplate := none, acceptInputCommand := none }
    input := { value := "draft message" } }

/-- C6 counterexample: with no commit template the freshly rendered input
shows the repository input's existing value, not the empty string. -/
theorem renderBody_initial_value_not_empty :
    repoDraft.provider.commitTemplate = none ∧
      ProviderPanel.renderBodyInputBoxValue repoDraft ≠ "" :=
  ⟨rfl, by decide⟩

/-- C6 amended: immediately after the panel body is rendered, the commit
input's value equals the provider's commit template when the provider
defines one, and equals the repository input's current value otherwise. -/
theorem renderBody_initial_value (repository : SCMRepository) :
    (∀ t, repository.provider.commitTemplate = some t →
        ProviderPanel.renderBodyInputBoxValue repository = t) ∧
    (repository.provider.commitTemplate = none →
        ProviderPanel.renderBodyInputBoxValue repository = repository.input.value) := by
  unfold ProviderPanel.renderBodyInputBoxValue ProviderPanel.updateInputBox
  constructor
  · intro t ht
    rw [ht]
  · intro hnone
    rw [hnone]

/-- A repository that declares a commit template while its input model
already holds a draft. -/
def repoChore : SCMRepository :=
  { provider :=
      { contextValue := "git"
        commitTemplate := some "chore: "
        acceptInputCommand := none }
    input := { value := "draft message" } }

/-- Witness for the amended C6: a repository that declares a template. -/
theorem renderBody_initial_value_witness :
    ProviderPanel.renderBodyInputBoxValue repoChore = "chore: " :=
  (renderBody_initial_value repoChore).1 "chore: " rfl

/-- Where a failed deferred result is routed: the process-wide
`onUnexpectedError` reporter, or the inline `messageService.show` surface. -/
inductive ErrorRoute
  | unexpectedErrorReporter
  | inlineMessage
  deriving DecidableEq, Repr

/-- One call into `commandService.executeCommand`: the command id, its
argument list, and where a rejection of the returned promise is routed. -/
structure CommandInvocation where
  id : String
  args : List String
  onError : ErrorRoute
  deriving DecidableEq, Repr

namespace ProviderPanel

/-- `ProviderPanel.onDidAcceptInput` (lines 640–650): with no declared
accept-input command the trigger returns early and executes nothing;
otherwise it executes the declared command id with the declared arguments,
routing failures through `.done(undefined, onUnexpectedError)`. -/
def onDidAcceptInput (provider : SCMProvider) : Option CommandInvocation :=
  match provider.acceptInputCommand with
  | none => none
  | some c => some { id := c.id, args := c.arguments, onError := .unexpectedErrorReporter }

end ProviderPanel

/-- C7: accept-input executes a command iff the provider declares one, with
exactly the declared id and argument list, and failures route to the
unexpected-error reporter rather than the inline message surface. -/
theorem onDidAcceptInput_spec (provider : SCMProvider) :
    (ProviderPanel.onDidAcceptInput provider = none ↔ provider.acceptInputCommand = none) ∧
    (∀ c, provider.acceptInputCommand = some c →
        ProviderPanel.onDidAcceptInput provider =
          some { id := c.id, args := c.arguments,
                 onError := ErrorRoute.unexpectedErrorReporter }) := by
  unfold ProviderPanel.onDidAcceptInput
  cases h : provider.acceptInputCommand with
  | none => exact ⟨by simp, by simp⟩
  | some c => exact ⟨by simp, by simp⟩

/-- Witness for C7: a provider declaring a `git.commit` accept-input
command. -/
theorem onDidAcceptInput_spec_witness :
    ProviderPanel.onDidAcceptInput
        { contextValue := "git", commitTemplate := none,
          acceptInputCommand := some { id := "git.commit", arguments := ["repoRoot"] } } =
      some { id := "git.commit", args := ["repoRoot"],
             onError := ErrorRoute.unexpectedErrorReporter } :=
  (onDidAcceptInput_spec
      { contextValue := "git", commitTemplate := none,
        acceptInputCommand := some { id := "git.commit", arguments := ["repoRoot"] } }).2
    { id := "git.commit", arguments := ["repoRoot"] } rfl

/-- `splice(start, deleteCount, ...elements)` as the list widget exposes it:
remove `deleteCount` items at `start` and insert `elements` there. -/
def listSplice {α : Type} (l : List α) (start deleteCount : Nat) (elements : List α) :
    List α :=
  l.take start ++ elements ++ l.drop (start + deleteCount)

namespace ProvidersListDelegate

/-- `ProvidersListDelegate.getHeight` (lines 89–91): every repository row is
22 pixels tall. -/
def getHeight : Nat := 22

end ProvidersListDelegate

/-- The `ProvidersPanel` state touched by its update path: the bound list
and the panel's preferred body-size bounds. -/
structure ProvidersPanelState where
  list : List SCMRepository
  minimumBodySize : Nat
  maximumBodySize : Nat
  deriving Repr

namespace ProvidersPanel

/-- `ProvidersPanel.updateBodySize` (lines 247–251): both size bounds become
`Math.min(5, repositories.length) * 22`. -/
def updateBodySize (repositories : List SCMRepository) (st : ProvidersPanelState) :
    ProvidersPanelState :=
  let size := Nat.min 5 repositories.length * 22
  { st with minimumBodySize := size, maximumBodySize := size }

/-- `ProvidersPanel.update` (lines 242–245), the handler run on both
`onDidAddRepository` and `onDidRemoveRepository`: splice the registry's
current repositories over the whole list, then recompute the body size. -/
def update (repositories : List SCMRepository) (st : ProvidersPanelState) :
    ProvidersPanelState :=
  updateBodySize repositories { st with list := listSplice st.list 0 st.list.length repositories }

end ProvidersPanel

/-- C8: on a repository-added or repository-removed event the panel's list
becomes exactly the registry's current repository collection via the
splice-all, and both preferred-size bounds become
`min(5, count) *` the delegate's row height of 22. -/
theorem providersPanel_update_spec (repositories : List SCMRepository)
    (st : ProvidersPanelState) :
    (ProvidersPanel.update repositories st).list = repositories ∧
    (ProvidersPanel.update repositories st).minimumBodySize =
      Nat.min 5 repositories.length * ProvidersListDelegate.getHeight ∧
    (ProvidersPanel.update repositories st).maximumBodySize =
      Nat.min 5 repositories.length * ProvidersListDelegate.getHeight := by
  unfold ProvidersPanel.update ProvidersPanel.updateBodySize listSplice
    ProvidersListDelegate.getHeight
  refine ⟨?_, rfl, rfl⟩
  simp

/-- The outputs of one `layoutBody` pass that depend on the height inputs:
the list container's height and whether the input box scrolls. -/
structure LayoutResult where
  listHeight : Int
  inputBoxScroll : Bool
  deriving DecidableEq, Repr

namespace ProviderPanel

/-- `ProviderPanel.layoutBody` (lines 541–556) at a total `height` with the
input box reporting `editorHeight`: the list container is styled to
`height - (editorHeight + 12)` (12 being the margin) and the input box
scrolls once the editor height reaches 134. (The early-return guard
`!height === undefined` compares a boolean against `undefined`, so it never
fires.) -/
def layoutBody (height editorHeight : Int) : LayoutResult :=
  { listHeight := height - (editorHeight + 12)
    inputBoxScroll := decide (134 ≤ editorHeight) }

end ProviderPanel

/-- C9: the list container height is `h - (e + 12)` for every total height
`h` and input-reported height `e`; in particular at `h = 300`, `e = 50` it
is 238. -/
theorem layoutBody_listHeight :
    (∀ height editorHeight : Int,
        (ProviderPanel.layoutBody height editorHeight).listHeight =
          height - (editorHeight + 12)) ∧
    (ProviderPanel.layoutBody 300 50).listHeight = 238 :=
  ⟨fun _ _ => rfl, by decide⟩

end SCMViewlet
